import Mathlib

/-
Shallow embedding of the Swachatha complaint-tracking backend (server.js).

The store is modelled as an explicit state record holding the four
collections the claims concern (users, admins, complaints, status records).
Each HTTP handler becomes a pure function from a request body and the
current state to an HTTP result paired with the next state.  Mongoose
behaviour that the handlers rely on is embedded as well:

* `save()` runs schema validation: a `required: true` String path must be
  present and non-empty, and an `enum` path must hold one of the listed
  values (the Status model declares such an enum on its status path, the
  Complaint model does not).
* `findOne` returns the first document of the collection, in insertion
  order, matching the filter.  A filter field the request did not supply is
  modelled as not matching any document.
* MongoDB object ids are modelled by a fresh-id counter in the state.
* `bcrypt.hash` rejects a missing password; its output is modelled by a
  tagged string, since no claim depends on hash values.
* Dates and timestamps are modelled as natural numbers; handlers that read
  the clock take the current time as an explicit argument.
-/

namespace Swachatha

/-- A stored image: raw bytes plus the declared content type. -/
structure Image where
  data : List Nat
  contentType : String
deriving DecidableEq

/-- A User or Admin account document. -/
structure Account where
  username : String
  email : String
  password : String
deriving DecidableEq

/-- A Complaint document (schema at server.js lines 39-53). -/
structure Complaint where
  id : Nat
  username : String
  complaintText : String
  date : Nat
  location : String
  subLocation : Option String
  roomNo : Option String
  image : Option Image
  status : String
  createdAt : Nat
  updatedAt : Nat
deriving DecidableEq

/-- A Status document (schema at server.js lines 55-62). -/
structure StatusRecord where
  id : Nat
  complaintId : Nat
  complaintText : String
  location : String
  subLocation : Option String
  status : String
  updatedAt : Nat
deriving DecidableEq

/-- The persistent store: the four collections the claims concern, plus a
fresh-id counter modelling object-id generation. -/
structure State where
  users : List Account
  admins : List Account
  complaints : List Complaint
  statuses : List StatusRecord
  nextId : Nat
deriving DecidableEq

/-- The outcome of a request, at the granularity the spec uses. -/
inductive HttpResult where
  | created201
  | ok200
  | badRequest400 (msg : String)
  | unauthorized401
  | notFound404
  | internal500
deriving DecidableEq

/-- Body of a signup request; a field the client did not send is none. -/
structure SignupBody where
  username : Option String
  email : Option String
  password : Option String
deriving DecidableEq

/-- Body of a complaint submission (multipart fields plus optional file). -/
structure ComplaintBody where
  username : String
  complaintText : String
  date : Nat
  location : String
  subLocation : Option String
  roomNo : Option String
  image : Option Image
deriving DecidableEq

/-- Models bcryptjs salted hashing of a present password.  No claim depends
on the hash value, only on the fact that a non-empty string is stored. -/
def bcryptHash (password : String) : String :=
  "$2a$10$" ++ password

/-- JS truthiness test for an optional string field: `!x` holds when the
field is absent or the empty string. -/
def falsy : Option String → Bool
  | none => true
  | some s => s == ""

/-- Mongoose validation of a `required: true` String path: present and
non-empty. -/
def requiredOk (s : String) : Bool :=
  !(s == "")

/-- The enum declared on the status path of the Status schema
(server.js line 60). -/
def statusEnum : List String :=
  ["Yet to Begin", "In Progress", "Resolved"]

/-- `String.endsWith`, embedded over character lists so that concrete
instances evaluate by decide. -/
def strEndsWith (s t : String) : Bool :=
  t.toList == s.toList.drop (s.toList.length - t.toList.length)

/-- The filter `findOne with or of email, username`: an account matches when
a supplied email equals its email or a supplied username equals its
username. -/
def accountMatches (email username : Option String) (a : Account) : Bool :=
  email == some a.email || username == some a.username

/-- POST /user/signup (server.js lines 83-101).  No missing-field check:
the duplicate lookup runs first, then hashing (which rejects an absent
password), then the save (whose required-field validation rejects an absent
or empty username or email). -/
def signupUser (body : SignupBody) (st : State) : HttpResult × State :=
  match st.users.find? (accountMatches body.email body.username) with
  | some existing =>
      (.badRequest400 (if body.email == some existing.email then
          "Email already registered" else "Username already taken"), st)
  | none =>
      match body.password with
      | none => (.internal500, st)
      | some p =>
          match body.username, body.email with
          | some u, some e =>
              if requiredOk u && requiredOk e then
                (.created201, { st with users := st.users ++ [⟨u, e, bcryptHash p⟩] })
              else (.internal500, st)
          | _, _ => (.internal500, st)

/-- POST /admin/signup (server.js lines 124-152).  The handler first tests
the three fields for JS falsiness, then the domain suffix, then the
duplicate lookup; the saved password is the hash, which is never empty, so
the save itself always succeeds here. -/
def signupAdmin (body : SignupBody) (st : State) : HttpResult × State :=
  if falsy body.username || falsy body.email || falsy body.password then
    (.badRequest400 "All fields are required", st)
  else
    match body.username, body.email, body.password with
    | some u, some e, some p =>
        if !(strEndsWith e "@admin.com") then
          (.badRequest400 "Email must end with @admin.com", st)
        else
          match st.admins.find? (accountMatches (some e) (some u)) with
          | some existing =>
              (.badRequest400 (if e == existing.email then
                  "Email already registered" else "Username already taken"), st)
          | none =>
              (.created201, { st with admins := st.admins ++ [⟨u, e, bcryptHash p⟩] })
    | _, _, _ => (.internal500, st)

/-- The complaint document built by POST /submit-complaint
(server.js lines 180-194): roomNo is nulled for mess and garden locations,
the status defaults to Yet to Begin, and both timestamps default to now. -/
def submittedComplaint (body : ComplaintBody) (now : Nat) (id : Nat) : Complaint :=
  { id := id
    username := body.username
    complaintText := body.complaintText
    date := body.date
    location := body.location
    subLocation := body.subLocation
    roomNo := if body.location == "mess" || body.location == "garden" then none
              else body.roomNo
    image := body.image
    status := "Yet to Begin"
    createdAt := now
    updatedAt := now }

/-- The initial status record built by POST /submit-complaint
(server.js lines 198-204), mirroring the complaint it references. -/
def initialStatusRecord (c : Complaint) (id : Nat) (now : Nat) : StatusRecord :=
  { id := id
    complaintId := c.id
    complaintText := c.complaintText
    location := c.location
    subLocation := c.subLocation
    status := "Yet to Begin"
    updatedAt := now }

/-- POST /submit-complaint (server.js lines 176-212).  Builds the complaint,
saves it, then saves the initial status record.  Each save is guarded by
the schema validation of its model. -/
def submitComplaint (body : ComplaintBody) (now : Nat) (st : State) : HttpResult × State :=
  let c : Complaint := submittedComplaint body now st.nextId
  if requiredOk c.username && requiredOk c.complaintText && requiredOk c.location then
    let r : StatusRecord := initialStatusRecord c (st.nextId + 1) now
    if statusEnum.contains r.status && requiredOk r.complaintText && requiredOk r.location then
      (.created201,
        { st with complaints := st.complaints ++ [c],
                  statuses := st.statuses ++ [r],
                  nextId := st.nextId + 2 })
    else
      (.internal500, { st with complaints := st.complaints ++ [c], nextId := st.nextId + 2 })
  else
    (.internal500, st)

/-- Replace the first element satisfying p by its image under f, leaving
the rest of the list unchanged: the effect of mutating and saving the
document returned by findOne. -/
def updateFirst {α : Type} (p : α → Bool) (f : α → α) : List α → List α
  | [] => []
  | x :: xs => if p x then f x :: xs else x :: updateFirst p f xs

/-- POST /update-status/:date (server.js lines 236-265).  Looks the
complaint up by exact date match; on a miss answers 404.  On a hit it saves
the complaint with the new status and timestamp (the Complaint schema puts
no enum on status, so any string passes), then saves a new status record,
which the Status schema validates against the enum; a failing second save
surfaces as 500 with the complaint already updated. -/
def updateStatus (d : Nat) (newStatus : String) (now : Nat) (st : State) : HttpResult × State :=
  match st.complaints.find? (fun c => c.date == d) with
  | none => (.notFound404, st)
  | some c =>
      if requiredOk c.username && requiredOk c.complaintText && requiredOk c.location then
        let st1 : State :=
          { st with complaints :=
              (updateFirst (fun x => x.date == d)
                (fun x => { x with status := newStatus, updatedAt := now }) st.complaints) }
        let r : StatusRecord :=
          { id := st.nextId
            complaintId := c.id
            complaintText := c.complaintText
            location := c.location
            subLocation := c.subLocation
            status := newStatus
            updatedAt := now }
        if statusEnum.contains newStatus && requiredOk r.complaintText && requiredOk r.location then
          (.ok200, { st1 with statuses := st.statuses ++ [r], nextId := st.nextId + 1 })
        else
          (.internal500, st1)
      else
        (.internal500, st)

/-- The base64 alphabet used by Buffer.toString. -/
def base64Chars : List Char :=
  ['A','B','C','D','E','F','G','H','I','J','K','L','M','N','O','P','Q','R','S','T',
   'U','V','W','X','Y','Z','a','b','c','d','e','f','g','h','i','j','k','l','m','n',
   'o','p','q','r','s','t','u','v','w','x','y','z','0','1','2','3','4','5','6','7',
   '8','9','+','/']

/-- The base64 digit for a 6-bit value. -/
def b64c (n : Nat) : Char :=
  base64Chars.getD n 'A'

/-- Standard padded base64 of a byte list: the embedding of
Buffer.toString applied with base64. -/
def base64Encode : List Nat → String
  | [] => ""
  | [a] =>
      ⟨[b64c (a / 4 % 64), b64c (a % 4 * 16), '=', '=']⟩
  | [a, b] =>
      ⟨[b64c (a / 4 % 64), b64c (a % 4 * 16 + b / 16 % 16), b64c (b % 16 * 4), '=']⟩
  | a :: b :: c :: rest =>
      (⟨[b64c (a / 4 % 64), b64c (a % 4 * 16 + b / 16 % 16),
         b64c (b % 16 * 4 + c / 64 % 4), b64c (c % 64)]⟩ : String)
      ++ base64Encode rest

/-- The view of a complaint returned by GET /get-complaints: every stored
field, with the image replaced by a data URI when present and by null
otherwise. -/
structure ComplaintView where
  id : Nat
  username : String
  complaintText : String
  date : Nat
  location : String
  subLocation : Option String
  roomNo : Option String
  image : Option String
  status : String
  createdAt : Nat
  updatedAt : Nat
deriving DecidableEq

/-- The per-complaint mapping of GET /get-complaints
(server.js lines 217-226). -/
def complaintView (c : Complaint) : ComplaintView :=
  { id := c.id
    username := c.username
    complaintText := c.complaintText
    date := c.date
    location := c.location
    subLocation := c.subLocation
    roomNo := c.roomNo
    image :=
      match c.image with
      | some img =>
          some ("data:" ++ img.contentType ++ ";base64," ++ base64Encode img.data)
      | none => none
    status := c.status
    createdAt := c.createdAt
    updatedAt := c.updatedAt }

/-- GET /get-complaints (server.js lines 214-233). -/
def getComplaints (st : State) : List ComplaintView :=
  st.complaints.map complaintView

/-- The spec invariant: every complaint is referenced by at least one
status record. -/
@[reducible] def statusInvariant (st : State) : Prop :=
  ∀ c ∈ st.complaints, ∃ r ∈ st.statuses, r.complaintId = c.id

/-- States whose complaints satisfy the required-field validation that
every save path of the Complaint model enforces; every state reachable
through the handlers satisfies it. -/
@[reducible] def wellFormedComplaints (st : State) : Prop :=
  ∀ c ∈ st.complaints, c.username ≠ "" ∧ c.complaintText ≠ "" ∧ c.location ≠ ""

/-- The empty store. -/
def emptyState : State :=
  { users := [], admins := [], complaints := [], statuses := [], nextId := 0 }

/-- A store holding one complaint and its initial status record. -/
def oneComplaintState : State :=
  { users := []
    admins := []
    complaints :=
      [{ id := 1, username := "ravi", complaintText := "tap leaking", date := 5,
         location := "hostel", subLocation := none, roomNo := some "112",
         image := none, status := "Yet to Begin", createdAt := 0, updatedAt := 0 }]
    statuses :=
      [{ id := 2, complaintId := 1, complaintText := "tap leaking",
         location := "hostel", subLocation := none, status := "Yet to Begin",
         updatedAt := 0 }]
    nextId := 3 }

/-- A store holding two user accounts with distinct usernames and emails. -/
def twoUserState : State :=
  { users := [⟨"usha", "usha@mail.com", "h1"⟩, ⟨"venu", "venu@mail.com", "h2"⟩]
    admins := [], complaints := [], statuses := [], nextId := 0 }

/-- A store holding a single user account. -/
def oneUserState : State :=
  { users := [⟨"asha", "asha@mail.com", "h1"⟩]
    admins := [], complaints := [], statuses := [], nextId := 0 }

/-! General lemmas about the store model. -/

theorem requiredOk_eq_true {s : String} (h : s ≠ "") : requiredOk s = true := by
  simp [requiredOk, h]

theorem statusEnum_contains_of_mem {s : String} (h : s ∈ statusEnum) :
    statusEnum.contains s = true := by
  simpa using h

theorem statusEnum_contains_of_not_mem {s : String} (h : s ∉ statusEnum) :
    statusEnum.contains s = false := by
  simpa using h

theorem find?_eq_get_of_first {α : Type} (p : α → Bool) (l : List α) (i : Nat)
    (hi : i < l.length) (hp : p (l.get ⟨i, hi⟩) = true)
    (hmin : ∀ j (hj : j < l.length), j < i → p (l.get ⟨j, hj⟩) = false) :
    l.find? p = some (l.get ⟨i, hi⟩) := by
  induction l generalizing i with
  | nil => exact absurd hi (by simp)
  | cons x xs ih =>
      cases i with
      | zero => exact List.find?_cons_of_pos xs hp
      | succ n =>
          have hx : p x = false := hmin 0 (by simp) (Nat.succ_pos n)
          rw [List.find?_cons_of_neg xs (by simp [hx])]
          exact ih n (Nat.lt_of_succ_lt_succ hi) hp
            (fun j hj hji => hmin (j + 1) (by omega) (by omega))

theorem updateFirst_eq_set {α : Type} (p : α → Bool) (f : α → α) (l : List α) (i : Nat)
    (hi : i < l.length) (hp : p (l.get ⟨i, hi⟩) = true)
    (hmin : ∀ j (hj : j < l.length), j < i → p (l.get ⟨j, hj⟩) = false) :
    updateFirst p f l = l.set i (f (l.get ⟨i, hi⟩)) := by
  induction l generalizing i with
  | nil => exact absurd hi (by simp)
  | cons x xs ih =>
      cases i with
      | zero =>
          have hp' : p x = true := hp
          simp [updateFirst, hp']
      | succ n =>
          have hx : p x = false := hmin 0 (by simp) (Nat.succ_pos n)
          have hrec := ih n (Nat.lt_of_succ_lt_succ hi) hp
            (fun j hj hji => hmin (j + 1) (by omega) (by omega))
          simp [updateFirst, hx, hrec]

theorem mem_updateFirst {α : Type} {p : α → Bool} {f : α → α} {l : List α} {x : α}
    (hx : x ∈ updateFirst p f l) : x ∈ l ∨ ∃ y ∈ l, x = f y := by
  induction l with
  | nil => cases hx
  | cons a as ih =>
      cases hpa : p a with
      | true =>
          simp only [updateFirst, hpa, if_true, List.mem_cons] at hx
          rcases hx with hx | hx
          · exact Or.inr ⟨a, List.mem_cons_self a as, hx⟩
          · exact Or.inl (List.mem_cons_of_mem a hx)
      | false =>
          simp only [updateFirst, hpa] at hx
          simp only [Bool.false_eq_true, if_false, List.mem_cons] at hx
          rcases hx with hx | hx
          · exact Or.inl (by simp [hx])
          · rcases ih hx with h | ⟨y, hy, hxy⟩
            · exact Or.inl (List.mem_cons_of_mem a h)
            · exact Or.inr ⟨y, List.mem_cons_of_mem a hy, hxy⟩

theorem updateFirst_mem_of_find? {α : Type} {p : α → Bool} (f : α → α) {l : List α} {a : α}
    (h : l.find? p = some a) : f a ∈ updateFirst p f l := by
  induction l with
  | nil => simp [List.find?] at h
  | cons x xs ih =>
      cases hx : p x with
      | true =>
          rw [List.find?_cons_of_pos xs hx] at h
          cases h
          simp [updateFirst, hx]
      | false =>
          rw [List.find?_cons_of_neg xs (by simp [hx])] at h
          have : f a ∈ x :: updateFirst p f xs := List.mem_cons_of_mem x (ih h)
          simpa [updateFirst, hx] using this

/-! Claim theorems. -/

/-- Claim C1: every submission with the required fields present creates
exactly one Complaint, with status Yet to Begin, and exactly one
StatusRecord referencing that complaint with the same status; the prior
contents of both collections, and the account collections, are untouched. -/
theorem submitComplaint_creates_one (body : ComplaintBody) (now : Nat) (st : State)
    (hu : body.username ≠ "") (ht : body.complaintText ≠ "") (hl : body.location ≠ "") :
    submitComplaint body now st =
      (.created201,
        { st with
            complaints := st.complaints ++ [submittedComplaint body now st.nextId],
            statuses := st.statuses ++
              [initialStatusRecord (submittedComplaint body now st.nextId) (st.nextId + 1) now],
            nextId := st.nextId + 2 }) ∧
    (submittedComplaint body now st.nextId).status = "Yet to Begin" ∧
    (initialStatusRecord (submittedComplaint body now st.nextId) (st.nextId + 1) now).status =
      "Yet to Begin" ∧
    (initialStatusRecord (submittedComplaint body now st.nextId) (st.nextId + 1) now).complaintId =
      (submittedComplaint body now st.nextId).id := by
  refine ⟨?_, rfl, rfl, rfl⟩
  simp [submitComplaint, submittedComplaint, initialStatusRecord,
    requiredOk_eq_true hu, requiredOk_eq_true ht, requiredOk_eq_true hl, statusEnum]

/-- Witness for C1 at a concrete submission on the empty store. -/
theorem submitComplaint_creates_one_witness :
    ("meena" ≠ "" ∧ "broken light" ≠ "" ∧ "academic block" ≠ "") ∧
    (submitComplaint
        ⟨"meena", "broken light", 9, "academic block", some "lab 2", some "204", none⟩
        4 emptyState =
      (.created201,
        { emptyState with
            complaints := emptyState.complaints ++
              [submittedComplaint
                ⟨"meena", "broken light", 9, "academic block", some "lab 2", some "204", none⟩
                4 emptyState.nextId],
            statuses := emptyState.statuses ++
              [initialStatusRecord
                (submittedComplaint
                  ⟨"meena", "broken light", 9, "academic block", some "lab 2", some "204", none⟩
                  4 emptyState.nextId)
                (emptyState.nextId + 1) 4],
            nextId := emptyState.nextId + 2 }) ∧
      (submittedComplaint
        ⟨"meena", "broken light", 9, "academic block", some "lab 2", some "204", none⟩
        4 emptyState.nextId).status = "Yet to Begin" ∧
      (initialStatusRecord
        (submittedComplaint
          ⟨"meena", "broken light", 9, "academic block", some "lab 2", some "204", none⟩
          4 emptyState.nextId)
        (emptyState.nextId + 1) 4).status = "Yet to Begin" ∧
      (initialStatusRecord
        (submittedComplaint
          ⟨"meena", "broken light", 9, "academic block", some "lab 2", some "204", none⟩
          4 emptyState.nextId)
        (emptyState.nextId + 1) 4).complaintId =
        (submittedComplaint
          ⟨"meena", "broken light", 9, "academic block", some "lab 2", some "204", none⟩
          4 emptyState.nextId).id) :=
  ⟨⟨by decide, by decide, by decide⟩,
    submitComplaint_creates_one
      ⟨"meena", "broken light", 9, "academic block", some "lab 2", some "204", none⟩
      4 emptyState (by decide) (by decide) (by decide)⟩

/-- Claim C3: when no stored complaint has the given date, the status
update answers 404 and the store is completely unchanged. -/
theorem updateStatus_no_match (st : State) (d : Nat) (s : String) (now : Nat)
    (h : ∀ c ∈ st.complaints, c.date ≠ d) :
    updateStatus d s now st = (.notFound404, st) := by
  have hfind : st.complaints.find? (fun c => c.date == d) = none := by
    rw [List.find?_eq_none]
    intro c hc
    simp [h c hc]
  simp [updateStatus, hfind]

/-- Witness for C3 at a concrete date absent from the store. -/
theorem updateStatus_no_match_witness :
    (∀ c ∈ oneComplaintState.complaints, c.date ≠ 7) ∧
    updateStatus 7 "In Progress" 10 oneComplaintState = (.notFound404, oneComplaintState) :=
  ⟨by decide, updateStatus_no_match oneComplaintState 7 "In Progress" 10 (by decide)⟩

/-- Claim C6: the persisted complaint stores roomNo as null when the
location is mess or garden, even when one was supplied, and stores the
supplied roomNo unchanged for every other location. -/
theorem submitComplaint_roomNo_normalized (body : ComplaintBody) (now : Nat) (st : State)
    (hu : body.username ≠ "") (ht : body.complaintText ≠ "") (hl : body.location ≠ "") :
    (submitComplaint body now st).2.complaints =
      st.complaints ++ [submittedComplaint body now st.nextId] ∧
    ((body.location = "mess" ∨ body.location = "garden") →
      (submittedComplaint body now st.nextId).roomNo = none) ∧
    (body.location ≠ "mess" → body.location ≠ "garden" →
      (submittedComplaint body now st.nextId).roomNo = body.roomNo) := by
  refine ⟨?_, ?_, ?_⟩
  · simp [submitComplaint, submittedComplaint, initialStatusRecord,
      requiredOk_eq_true hu, requiredOk_eq_true ht, requiredOk_eq_true hl, statusEnum]
  · intro hloc
    rcases hloc with hloc | hloc <;> simp [submittedComplaint, hloc]
  · intro h1 h2
    simp [submittedComplaint, h1, h2]

/-- Witness for C6 at a mess-location submission carrying a room number. -/
theorem submitComplaint_roomNo_normalized_witness :
    ("meena" ≠ "" ∧ "stale food" ≠ "" ∧ "mess" ≠ "") ∧
    ((submitComplaint ⟨"meena", "stale food", 9, "mess", none, some "204", none⟩ 4
        emptyState).2.complaints =
      emptyState.complaints ++
        [submittedComplaint ⟨"meena", "stale food", 9, "mess", none, some "204", none⟩ 4
          emptyState.nextId] ∧
      (("mess" = "mess" ∨ "mess" = "garden") →
        (submittedComplaint ⟨"meena", "stale food", 9, "mess", none, some "204", none⟩ 4
          emptyState.nextId).roomNo = none) ∧
      ("mess" ≠ "mess" → "mess" ≠ "garden" →
        (submittedComplaint ⟨"meena", "stale food", 9, "mess", none, some "204", none⟩ 4
          emptyState.nextId).roomNo = some "204")) :=
  ⟨⟨by decide, by decide, by decide⟩,
    submitComplaint_roomNo_normalized
      ⟨"meena", "stale food", 9, "mess", none, some "204", none⟩ 4 emptyState
      (by decide) (by decide) (by decide)⟩

/-- Claim C2: on a state whose first complaint with the given date sits at
index i, an update with an enum status answers 200, replaces exactly that
complaint by a copy whose status is the new value and whose updatedAt is
now, and appends exactly one status record carrying the same status and the
matched complaint's text, location and subLocation; every previously
existing status record, and every other complaint, is left unchanged. -/
theorem updateStatus_updates_first_match (st : State) (d now : Nat) (newStatus : String)
    (henum : newStatus ∈ statusEnum) (hwf : wellFormedComplaints st)
    (i : Nat) (hi : i < st.complaints.length)
    (hdate : (st.complaints.get ⟨i, hi⟩).date = d)
    (hfirst : ∀ j (hj : j < st.complaints.length), j < i →
      (st.complaints.get ⟨j, hj⟩).date ≠ d) :
    updateStatus d newStatus now st =
      (.ok200,
        { st with
            complaints := (st.complaints.set i
              { st.complaints.get ⟨i, hi⟩ with status := newStatus, updatedAt := now }),
            statuses := st.statuses ++
              [{ id := st.nextId,
                 complaintId := (st.complaints.get ⟨i, hi⟩).id,
                 complaintText := (st.complaints.get ⟨i, hi⟩).complaintText,
                 location := (st.complaints.get ⟨i, hi⟩).location,
                 subLocation := (st.complaints.get ⟨i, hi⟩).subLocation,
                 status := newStatus,
                 updatedAt := now }],
            nextId := st.nextId + 1 }) := by
  have hp : (fun c : Complaint => c.date == d) (st.complaints.get ⟨i, hi⟩) = true := by
    show ((st.complaints.get ⟨i, hi⟩).date == d) = true
    exact beq_iff_eq.mpr hdate
  have hmin : ∀ j (hj : j < st.complaints.length), j < i →
      (fun c : Complaint => c.date == d) (st.complaints.get ⟨j, hj⟩) = false := by
    intro j hj hji
    show ((st.complaints.get ⟨j, hj⟩).date == d) = false
    exact beq_eq_false_iff_ne.mpr (hfirst j hj hji)
  have hfind := find?_eq_get_of_first (fun c : Complaint => c.date == d) st.complaints i hi hp hmin
  have hupd := updateFirst_eq_set (fun c : Complaint => c.date == d)
    (fun x => { x with status := newStatus, updatedAt := now }) st.complaints i hi hp hmin
  obtain ⟨hru, hrt, hrl⟩ := hwf (st.complaints.get ⟨i, hi⟩) (List.get_mem st.complaints i hi)
  simp only [List.get_eq_getElem] at hfind hupd hru hrt hrl ⊢
  simp [updateStatus, hfind, hupd, requiredOk, hru, hrt, hrl, henum]

/-- Witness for C2 at a concrete enum update of the single stored
complaint. -/
theorem updateStatus_updates_first_match_witness :
    ("In Progress" ∈ statusEnum ∧ wellFormedComplaints oneComplaintState ∧
      (oneComplaintState.complaints.get ⟨0, by decide⟩).date = 5) ∧
    updateStatus 5 "In Progress" 10 oneComplaintState =
      (.ok200,
        { oneComplaintState with
            complaints := (oneComplaintState.complaints.set 0
              { oneComplaintState.complaints.get ⟨0, by decide⟩ with
                  status := "In Progress", updatedAt := 10 }),
            statuses := oneComplaintState.statuses ++
              [{ id := oneComplaintState.nextId,
                 complaintId := (oneComplaintState.complaints.get ⟨0, by decide⟩).id,
                 complaintText := (oneComplaintState.complaints.get ⟨0, by decide⟩).complaintText,
                 location := (oneComplaintState.complaints.get ⟨0, by decide⟩).location,
                 subLocation := (oneComplaintState.complaints.get ⟨0, by decide⟩).subLocation,
                 status := "In Progress",
                 updatedAt := 10 }],
            nextId := oneComplaintState.nextId + 1 }) :=
  ⟨⟨by decide, by decide, by decide⟩,
    updateStatus_updates_first_match oneComplaintState 5 10 "In Progress"
      (by decide) (by decide) 0 (by decide) (by decide)
      (fun j hj hji => absurd hji (Nat.not_lt_zero j))⟩

/-- Claim C7: the complaint listing maps each stored complaint to a view
whose image field is the data URI of the stored bytes when an image is
present and null otherwise. -/
theorem getComplaints_image_data_uri (st : State) :
    List.Forall₂ (fun (c : Complaint) (v : ComplaintView) =>
        (c.image = none → v.image = none) ∧
        ∀ img, c.image = some img →
          v.image = some ("data:" ++ img.contentType ++ ";base64," ++ base64Encode img.data))
      st.complaints (getComplaints st) := by
  unfold getComplaints
  induction st.complaints with
  | nil => exact List.Forall₂.nil
  | cons c cs ih =>
      refine List.Forall₂.cons ⟨?_, ?_⟩ ih
      · intro h
        simp [complaintView, h]
      · intro img h
        simp [complaintView, h]

/-- Witness for C7 at a store holding one complaint with an image and one
without. -/
theorem getComplaints_image_data_uri_witness :
    List.Forall₂ (fun (c : Complaint) (v : ComplaintView) =>
        (c.image = none → v.image = none) ∧
        ∀ img, c.image = some img →
          v.image = some ("data:" ++ img.contentType ++ ";base64," ++ base64Encode img.data))
      oneComplaintState.complaints (getComplaints oneComplaintState) :=
  getComplaints_image_data_uri oneComplaintState

/-- Sanity check of the base64 embedding on a standard example. -/
theorem base64Encode_example : base64Encode [77, 97, 110] = "TWFu" := by
  decide

/-- Claim C5: each state-changing operation preserves the invariant that
every stored complaint is referenced by at least one status record. -/
theorem operations_preserve_status_invariant (st : State) (hinv : statusInvariant st) :
    (∀ body, statusInvariant (signupUser body st).2) ∧
    (∀ body, statusInvariant (signupAdmin body st).2) ∧
    (∀ body now, statusInvariant (submitComplaint body now st).2) ∧
    (∀ d s now, statusInvariant (updateStatus d s now st).2) := by
  refine ⟨?_, ?_, ?_, ?_⟩
  · intro body
    simp only [signupUser]
    repeat' split
    all_goals exact hinv
  · intro body
    simp only [signupAdmin]
    repeat' split
    all_goals exact hinv
  · intro body now
    simp only [submitComplaint]
    split
    next h1 =>
      split
      next h2 =>
        intro c hc
        rcases List.mem_append.mp hc with hc | hc
        · obtain ⟨r, hr, hrid⟩ := hinv c hc
          exact ⟨r, List.mem_append_left _ hr, hrid⟩
        · have hceq : c = submittedComplaint body now st.nextId := by simpa using hc
          subst hceq
          exact ⟨initialStatusRecord (submittedComplaint body now st.nextId) (st.nextId + 1) now,
            List.mem_append_right _ (by simp), rfl⟩
      next h2 =>
        exfalso
        simp only [initialStatusRecord, submittedComplaint, Bool.and_eq_true] at h1 h2
        exact h2 ⟨⟨by decide, h1.1.2⟩, h1.2⟩
    next h1 => exact hinv
  · intro d s now
    simp only [updateStatus]
    split
    next => exact hinv
    next c hfind =>
      split
      next h1 =>
        split
        next h2 =>
          intro c' hc'
          rcases mem_updateFirst hc' with h | ⟨y, hy, rfl⟩
          · obtain ⟨r, hr, hrid⟩ := hinv c' h
            exact ⟨r, List.mem_append_left _ hr, hrid⟩
          · obtain ⟨r, hr, hrid⟩ := hinv y hy
            exact ⟨r, List.mem_append_left _ hr, hrid⟩
        next h2 =>
          intro c' hc'
          rcases mem_updateFirst hc' with h | ⟨y, hy, rfl⟩
          · exact hinv c' h
          · obtain ⟨r, hr, hrid⟩ := hinv y hy
            exact ⟨r, hr, hrid⟩
      next h1 => exact hinv

/-- Witness for C5: the invariant holds of the one-complaint store and is
kept by a concrete update. -/
theorem operations_preserve_status_invariant_witness :
    statusInvariant oneComplaintState ∧
    statusInvariant (updateStatus 5 "Resolved" 10 oneComplaintState).2 :=
  ⟨by decide,
    (operations_preserve_status_invariant oneComplaintState (by decide)).2.2.2 5 "Resolved" 10⟩

/-- Counterexample to claim C4 as stated: on a store with a matching
complaint, an update whose status is outside the declared enum does not
succeed: it answers 500, appends no status record, and still leaves the
out-of-enum value on the complaint itself. -/
theorem updateStatus_nonenum_rejected_counterexample :
    oneComplaintState.complaints.map (fun c => c.date) = [5] ∧
    (updateStatus 5 "Bogus" 10 oneComplaintState).1 = .internal500 ∧
    (updateStatus 5 "Bogus" 10 oneComplaintState).1 ≠ .ok200 ∧
    (updateStatus 5 "Bogus" 10 oneComplaintState).2.statuses = oneComplaintState.statuses ∧
    (updateStatus 5 "Bogus" 10 oneComplaintState).2.complaints.map (fun c => c.status) =
      ["Bogus"] := by
  refine ⟨rfl, rfl, by decide, rfl, rfl⟩

/-- Claim C4 (amended): the handler itself validates nothing, but the
Status schema enum is enforced when the new status record is saved.  A
status inside the enum makes the update succeed whatever the prior status
was; a status outside the enum makes it answer 500 with no status record
appended, while the complaint itself has already been saved carrying the
arbitrary value. -/
theorem updateStatus_status_validation (st : State) (d now : Nat) (s : String)
    (hwf : wellFormedComplaints st) (hm : ∃ c ∈ st.complaints, c.date = d) :
    (s ∈ statusEnum → (updateStatus d s now st).1 = .ok200) ∧
    (s ∉ statusEnum →
      (updateStatus d s now st).1 = .internal500 ∧
      (updateStatus d s now st).2.statuses = st.statuses ∧
      ∃ c ∈ (updateStatus d s now st).2.complaints, c.status = s ∧ c.updatedAt = now) := by
  obtain ⟨c0, hc0, hd0⟩ := hm
  have hsome : (st.complaints.find? (fun c => c.date == d)).isSome = true :=
    List.find?_isSome.mpr ⟨c0, hc0, beq_iff_eq.mpr hd0⟩
  obtain ⟨c, hfind⟩ := Option.isSome_iff_exists.mp hsome
  have hcmem := List.mem_of_find?_eq_some hfind
  obtain ⟨hru, hrt, hrl⟩ := hwf c hcmem
  constructor
  · intro hs
    simp [updateStatus, hfind, requiredOk, hru, hrt, hrl, hs]
  · intro hs
    refine ⟨?_, ?_, ?_⟩
    · simp [updateStatus, hfind, requiredOk, hru, hrt, hrl, hs]
    · simp [updateStatus, hfind, requiredOk, hru, hrt, hrl, hs]
    · have hmem2 := updateFirst_mem_of_find?
        (fun x => { x with status := s, updatedAt := now }) hfind
      refine ⟨{ c with status := s, updatedAt := now }, ?_, rfl, rfl⟩
      simp only [updateStatus, hfind]
      simp [requiredOk, hru, hrt, hrl, hs]
      exact hmem2

/-- Witness for C4 (amended) at a concrete enum status. -/
theorem updateStatus_status_validation_witness :
    (wellFormedComplaints oneComplaintState ∧
      (∃ c ∈ oneComplaintState.complaints, c.date = 5) ∧ "Resolved" ∈ statusEnum) ∧
    (updateStatus 5 "Resolved" 10 oneComplaintState).1 = .ok200 :=
  ⟨⟨by decide, by decide, by decide⟩,
    (updateStatus_status_validation oneComplaintState 5 10 "Resolved"
      (by decide) (by decide)).1 (by decide)⟩

/-- Counterexample to claim C8 as stated: with two stored users, a request
whose username matches the first user and whose email matches the second
user fails with the username message, although the email does match an
existing same-class account, so the email check does not take precedence
across distinct accounts. -/
theorem signup_conflict_message_counterexample :
    ("venu@mail.com" ∈ twoUserState.users.map (fun a => a.email)) ∧
    signupUser ⟨some "usha", some "venu@mail.com", some "p"⟩ twoUserState =
      (.badRequest400 "Username already taken", twoUserState) ∧
    (signupUser ⟨some "usha", some "venu@mail.com", some "p"⟩ twoUserState).1 ≠
      .badRequest400 "Email already registered" := by
  refine ⟨by decide, rfl, by decide⟩

/-- Claim C8 (amended): in both account classes a signup matching an
existing account fails with a conflict and stores nothing; the message is
determined by the first stored account matching either field: the email
message when that account's email equals the given email (so email wins
whenever both fields match one account), and the username message
otherwise. -/
theorem signup_conflict_first_match :
    (∀ (st : State) (body : SignupBody) (ex : Account),
      st.users.find? (accountMatches body.email body.username) = some ex →
      signupUser body st =
        (.badRequest400 (if body.email == some ex.email then "Email already registered"
          else "Username already taken"), st)) ∧
    (∀ (st : State) (u e p : String) (ex : Account),
      u ≠ "" → e ≠ "" → p ≠ "" → strEndsWith e "@admin.com" = true →
      st.admins.find? (accountMatches (some e) (some u)) = some ex →
      signupAdmin ⟨some u, some e, some p⟩ st =
        (.badRequest400 (if e == ex.email then "Email already registered"
          else "Username already taken"), st)) := by
  constructor
  · intro st body ex hfind
    simp [signupUser, hfind]
  · intro st u e p ex hu he hp hend hfind
    simp [signupAdmin, falsy, hu, he, hp, hend, hfind]

/-- Witness for C8 (amended): a same-username conflict in the user class at
a concrete store. -/
theorem signup_conflict_first_match_witness :
    (oneUserState.users.find?
        (accountMatches (some "fresh@mail.com") (some "asha")) =
      some ⟨"asha", "asha@mail.com", "h1"⟩) ∧
    signupUser ⟨some "asha", some "fresh@mail.com", some "p"⟩ oneUserState =
      (.badRequest400 (if (some "fresh@mail.com" : Option String) == some "asha@mail.com"
        then "Email already registered" else "Username already taken"), oneUserState) :=
  ⟨by decide,
    signup_conflict_first_match.1 oneUserState
      ⟨some "asha", some "fresh@mail.com", some "p"⟩
      ⟨"asha", "asha@mail.com", "h1"⟩ (by decide)⟩

/-- Counterexample to claim C9 as stated: an admin signup whose fields are
all supplied (username is the empty string) and whose email carries the
admin domain suffix still fails the missing-field check, so the uniqueness
check is not reached and no account is stored, although no field is
missing. -/
theorem signupAdmin_empty_username_counterexample :
    ((some "" : Option String) ≠ none ∧
      strEndsWith "a@admin.com" "@admin.com" = true) ∧
    signupAdmin ⟨some "", some "a@admin.com", some "p"⟩ emptyState =
      (.badRequest400 "All fields are required", emptyState) ∧
    (signupAdmin ⟨some "", some "a@admin.com", some "p"⟩ emptyState).2.admins = [] := by
  refine ⟨⟨by decide, by decide⟩, rfl, rfl⟩

/-- Claim C9 (amended): admin signup fails with the missing-field
BadRequest when any field is missing or empty (JS falsiness), before any
other check; with all fields present and non-empty it fails with the
domain BadRequest when the email lacks the admin suffix; only when both
checks pass is the duplicate lookup performed and, finding nothing, the
account stored in the separate Admin collection. -/
theorem signupAdmin_checks :
    (∀ (body : SignupBody) (st : State),
      (falsy body.username || falsy body.email || falsy body.password) = true →
      signupAdmin body st = (.badRequest400 "All fields are required", st)) ∧
    (∀ (u e p : String) (st : State),
      u ≠ "" → e ≠ "" → p ≠ "" → strEndsWith e "@admin.com" = false →
      signupAdmin ⟨some u, some e, some p⟩ st =
        (.badRequest400 "Email must end with @admin.com", st)) ∧
    (∀ (u e p : String) (st : State),
      u ≠ "" → e ≠ "" → p ≠ "" → strEndsWith e "@admin.com" = true →
      st.admins.find? (accountMatches (some e) (some u)) = none →
      signupAdmin ⟨some u, some e, some p⟩ st =
        (.created201, { st with admins := st.admins ++ [⟨u, e, bcryptHash p⟩] })) := by
  refine ⟨?_, ?_, ?_⟩
  · intro body st h
    simp [signupAdmin, h]
  · intro u e p st hu he hp hend
    simp [signupAdmin, falsy, hu, he, hp, hend]
  · intro u e p st hu he hp hend hfind
    simp [signupAdmin, falsy, hu, he, hp, hend, hfind]

/-- Witness for C9 (amended): a fresh admin signup with the admin domain
succeeds and is stored. -/
theorem signupAdmin_checks_witness :
    ("arun" ≠ "" ∧ "arun@admin.com" ≠ "" ∧ "pw" ≠ "" ∧
      strEndsWith "arun@admin.com" "@admin.com" = true ∧
      emptyState.admins.find? (accountMatches (some "arun@admin.com") (some "arun")) = none) ∧
    signupAdmin ⟨some "arun", some "arun@admin.com", some "pw"⟩ emptyState =
      (.created201,
        { emptyState with
            admins := emptyState.admins ++ [⟨"arun", "arun@admin.com", bcryptHash "pw"⟩] }) :=
  ⟨⟨by decide, by decide, by decide, by decide, by decide⟩,
    signupAdmin_checks.2.2 "arun" "arun@admin.com" "pw" emptyState
      (by decide) (by decide) (by decide) (by decide) (by decide)⟩

/-- Counterexample to claim C10 as stated: a user signup with a missing
username whose email matches a stored account fails with the conflict
BadRequest, not with Internal 500. -/
theorem signupUser_missing_field_conflict_counterexample :
    ((⟨none, some "asha@mail.com", some "p"⟩ : SignupBody).username = none) ∧
    signupUser ⟨none, some "asha@mail.com", some "p"⟩ oneUserState =
      (.badRequest400 "Email already registered", oneUserState) ∧
    (signupUser ⟨none, some "asha@mail.com", some "p"⟩ oneUserState).1 ≠ .internal500 := by
  refine ⟨rfl, rfl, by decide⟩

/-- Claim C10 (amended): user signup performs no missing-field check, so a
request with a missing field never yields the missing-field BadRequest,
never stores an account, and never succeeds; when additionally no stored
account matches a supplied field, it fails with Internal 500 (hashing or
required-field storage failure); the only other outcome is the duplicate
conflict. -/
theorem signupUser_missing_field (body : SignupBody) (st : State)
    (h : body.username = none ∨ body.email = none ∨ body.password = none) :
    (signupUser body st).2 = st ∧
    (signupUser body st).1 ≠ .created201 ∧
    (signupUser body st).1 ≠ .badRequest400 "All fields are required" ∧
    ((∀ a ∈ st.users, body.email ≠ some a.email ∧ body.username ≠ some a.username) →
      signupUser body st = (.internal500, st)) := by
  cases hfind : st.users.find? (accountMatches body.email body.username) with
  | some ex =>
      have hmsg : signupUser body st =
          (.badRequest400 (if body.email == some ex.email then "Email already registered"
            else "Username already taken"), st) := by
        simp [signupUser, hfind]
      refine ⟨by rw [hmsg], ?_, ?_, ?_⟩
      · rw [hmsg]
        cases body.email == some ex.email <;> simp
      · rw [hmsg]
        cases body.email == some ex.email <;> simp
      · intro hnone
        exfalso
        have hpm := List.find?_some hfind
        have hmem := List.mem_of_find?_eq_some hfind
        obtain ⟨h1, h2⟩ := hnone ex hmem
        simp only [accountMatches, Bool.or_eq_true, beq_iff_eq] at hpm
        rcases hpm with hpm | hpm
        · exact h1 hpm
        · exact h2 hpm
  | none =>
      have hres : signupUser body st = (.internal500, st) := by
        simp only [signupUser, hfind]
        rcases hbp : body.password with _ | p
        · simp
        · rcases hbu : body.username with _ | u
          · simp
          · have hbe : body.email = none := by
              rcases h with h | h | h
              · rw [hbu] at h; cases h
              · exact h
              · rw [hbp] at h; cases h
            simp [hbe]
      exact ⟨by rw [hres], by rw [hres]; simp, by rw [hres]; simp, fun _ => hres⟩

/-- Witness for C10 (amended) at a request with every field missing on the
empty store. -/
theorem signupUser_missing_field_witness :
    ((⟨none, none, none⟩ : SignupBody).username = none ∨
      (⟨none, none, none⟩ : SignupBody).email = none ∨
      (⟨none, none, none⟩ : SignupBody).password = none) ∧
    ((signupUser ⟨none, none, none⟩ emptyState).2 = emptyState ∧
      (signupUser ⟨none, none, none⟩ emptyState).1 ≠ .created201 ∧
      (signupUser ⟨none, none, none⟩ emptyState).1 ≠ .badRequest400 "All fields are required" ∧
      ((∀ a ∈ emptyState.users,
          (⟨none, none, none⟩ : SignupBody).email ≠ some a.email ∧
          (⟨none, none, none⟩ : SignupBody).username ≠ some a.username) →
        signupUser ⟨none, none, none⟩ emptyState = (.internal500, emptyState))) :=
  ⟨Or.inl rfl, signupUser_missing_field ⟨none, none, none⟩ emptyState (Or.inl rfl)⟩

end Swachatha
